/-
Verification of the "AI Creative Writer" core against its specification.

The repository is a small React + Express application:
  * `App.tsx` (src/unnamed/part_000, second document) holds the History Log
    (`addToHistory`), the generation flow (`handleContinue`, `generateText`),
    and the Story Store (`saveStory`, `loadStory`, `newStory`, `deleteStory`),
    all over plain JS arrays and `localStorage`.
  * `ProseMirrorEditor.tsx` implements the editing surface
    (`getText` / `setText` / `insertTextAtEnd` / `clear`) over a textarea.
  * `aiMachine.ts` is an XState machine (idle / generating / success /
    failure) that models the generation lifecycle.

This file is a shallow embedding of those functions: JS strings become Lean
`String` (a list of characters), `Date.now()` becomes an explicit `now : Nat`
parameter, React `useState` state becomes explicit record passing, and the
`fetch` of the provider becomes an explicit `FetchOutcome` argument describing
how the call resolved.
-/
import Mathlib

set_option autoImplicit false

namespace Chronical

/-- JS `s.slice(0, n)`: the first `n` characters of the string. -/
def jsSlice (s : String) (n : Nat) : String :=
  ⟨s.data.take n⟩

/-- JS string truthiness: a string is truthy iff it is non-empty. -/
def strTruthy (s : String) : Bool :=
  s ≠ ""

/-- JS `s.trim()`: strip leading and trailing whitespace characters. -/
def jsTrim (s : String) : String :=
  ⟨((s.data.dropWhile Char.isWhitespace).reverse.dropWhile Char.isWhitespace).reverse⟩

/-- JS `Option`-valued truthiness for a `string | null` variable. -/
def optTruthy (s : Option String) : Bool :=
  match s with
  | none => false
  | some v => strTruthy v

/-- A history entry's kind: `'user' | 'ai'` in `App.tsx`. -/
inductive EntryType where
  | user
  | ai
deriving DecidableEq, Repr

/-- `HistoryEntry` from `App.tsx`:
`{ id: string; type: 'user' | 'ai'; content: string; timestamp: number }`. -/
structure HistoryEntry where
  id : String
  type : EntryType
  content : String
  timestamp : Nat
deriving DecidableEq, Repr

/-- `addToHistory` from `App.tsx`:
```
const entry: HistoryEntry = {
  id: Date.now().toString(),
  type,
  content: content.slice(0, 200), // Store first 200 chars
  timestamp: Date.now()
};
setHistory(prev => [entry, ...prev].slice(0, 50)); // Keep last 50 entries
```
`Date.now()` is passed in as `now`. -/
def addToHistory (now : Nat) (type : EntryType) (content : String)
    (prev : List HistoryEntry) : List HistoryEntry :=
  let entry : HistoryEntry :=
    { id := toString now
      type := type
      content := jsSlice content 200
      timestamp := now }
  (entry :: prev).take 50

/-- The entry that `addToHistory now type content` constructs before insertion. -/
def mkEntry (now : Nat) (type : EntryType) (content : String) : HistoryEntry :=
  { id := toString now
    type := type
    content := jsSlice content 200
    timestamp := now }

/-- One append request: the `Date.now()` value, the kind and the raw content. -/
structure AppendOp where
  now : Nat
  type : EntryType
  content : String
deriving Repr

/-- A sequence of `addToHistory` calls starting from the empty log. -/
def runAppends (ops : List AppendOp) : List HistoryEntry :=
  ops.foldl (fun h op => addToHistory op.now op.type op.content h) []

theorem addToHistory_eq (now : Nat) (ty : EntryType) (c : String)
    (prev : List HistoryEntry) :
    addToHistory now ty c prev = (mkEntry now ty c :: prev).take 50 := rfl

theorem length_addToHistory (now : Nat) (ty : EntryType) (c : String)
    (prev : List HistoryEntry) :
    (addToHistory now ty c prev).length = min (prev.length + 1) 50 := by
  simp only [addToHistory, List.length_take, List.length_cons]
  omega

theorem length_foldl_addToHistory (ops : List AppendOp) (h : List HistoryEntry)
    (hh : h.length ≤ 50) :
    (ops.foldl (fun acc op => addToHistory op.now op.type op.content acc) h).length
      = min (h.length + ops.length) 50 := by
  induction ops generalizing h with
  | nil => simpa using hh
  | cons op ops ih =>
    rw [List.foldl_cons, ih _ (by rw [length_addToHistory]; omega),
      length_addToHistory, List.length_cons]
    omega

theorem head_addToHistory (now : Nat) (ty : EntryType) (c : String)
    (prev : List HistoryEntry) :
    (addToHistory now ty c prev).head? = some (mkEntry now ty c) := by
  simp [addToHistory, mkEntry, List.take_cons]

theorem tail_addToHistory (now : Nat) (ty : EntryType) (c : String)
    (prev : List HistoryEntry) :
    (addToHistory now ty c prev).tail = prev.take 49 := by
  simp [addToHistory, List.take_cons]

theorem addToHistory_full (now : Nat) (ty : EntryType) (c : String)
    (prev : List HistoryEntry) (hprev : prev.length = 50) :
    addToHistory now ty c prev = mkEntry now ty c :: prev.dropLast := by
  rw [addToHistory_eq, List.take_cons, List.dropLast_eq_take, hprev]
  norm_num

/-- C1: starting from the empty log, `N` appends leave the log with length
`min N 50`; the head is the entry built from the most recent append; and an
append onto a full (length-50) log inserts the new entry at the head and
evicts exactly the tail (oldest) entry. -/
theorem history_bounded :
    (∀ ops : List AppendOp, (runAppends ops).length = min ops.length 50) ∧
    (∀ (ops : List AppendOp) (op : AppendOp),
      (runAppends (ops ++ [op])).head? = some (mkEntry op.now op.type op.content)) ∧
    (∀ (now : Nat) (ty : EntryType) (c : String) (prev : List HistoryEntry),
      prev.length = 50 →
      addToHistory now ty c prev = mkEntry now ty c :: prev.dropLast) := by
  refine ⟨fun ops => ?_, fun ops op => ?_, addToHistory_full⟩
  · have := length_foldl_addToHistory ops [] (by simp)
    simpa [runAppends] using this
  · rw [runAppends, List.foldl_append, List.foldl_cons, List.foldl_nil,
      head_addToHistory]

/-- Witness for C1: instantiates each part of `history_bounded` at a concrete
input, in particular the eviction clause at a concrete log of length 50. -/
theorem history_bounded_witness :
    (runAppends [⟨1, .user, "a"⟩, ⟨2, .ai, "b"⟩]).length = min 2 50 ∧
    (runAppends ([⟨1, .user, "a"⟩] ++ [⟨2, .ai, "b"⟩])).head? = some (mkEntry 2 .ai "b") ∧
    addToHistory 7 .user "new" ((List.range 50).map (fun i => mkEntry i .ai "x"))
      = mkEntry 7 .user "new" :: ((List.range 50).map (fun i => mkEntry i .ai "x")).dropLast := by
  refine ⟨history_bounded.1 _, history_bounded.2.1 _ _, ?_⟩
  exact history_bounded.2.2 7 .user "new" _
    (by rw [List.length_map, List.length_range])

/-- C2: the entry stored by `addToHistory` has content `c.slice(0, 200)`: when
the input has more than 200 characters the stored content has length exactly
200 and is a prefix of the input; otherwise it is the input unchanged. The
tail of the new log is a prefix of the previous log, so entries already stored
are never modified (in particular never truncated again). -/
theorem history_truncation (now : Nat) (ty : EntryType) (c : String)
    (prev : List HistoryEntry) :
    (addToHistory now ty c prev).head? = some (mkEntry now ty c) ∧
    (mkEntry now ty c).content = jsSlice c 200 ∧
    (200 < c.length →
      (mkEntry now ty c).content.length = 200 ∧
      (mkEntry now ty c).content.data <+: c.data) ∧
    (c.length ≤ 200 → (mkEntry now ty c).content = c) ∧
    (addToHistory now ty c prev).tail = prev.take 49 := by
  refine ⟨head_addToHistory now ty c prev, rfl, fun hlong => ⟨?_, ?_⟩,
    fun hshort => ?_, tail_addToHistory now ty c prev⟩
  · show (c.data.take 200).length = 200
    rw [List.length_take]
    exact Nat.min_eq_left (Nat.le_of_lt hlong)
  · exact List.take_prefix 200 c.data
  · show (⟨c.data.take 200⟩ : String) = c
    rw [List.take_of_length_le hshort]

/-- Witness for C2: a 201-character input is stored as its 200-character
prefix; a short input is stored unchanged. -/
theorem history_truncation_witness :
    (200 < (String.mk (List.replicate 201 'a')).length ∧
      (mkEntry 3 .user (String.mk (List.replicate 201 'a'))).content.length = 200 ∧
      (mkEntry 3 .user (String.mk (List.replicate 201 'a'))).content.data
        <+: (String.mk (List.replicate 201 'a')).data) ∧
    ("hi".length ≤ 200 ∧ (mkEntry 4 .ai "hi").content = "hi") := by
  constructor
  · have h : 200 < (String.mk (List.replicate 201 'a')).length := by
      show 200 < (List.replicate 201 'a').length
      rw [List.length_replicate]
      norm_num
    exact ⟨h, (history_truncation 3 .user _ []).2.2.1 h⟩
  · exact ⟨by decide, (history_truncation 4 .ai "hi" []).2.2.2.1 (by decide)⟩

/-! ### Editing surface (`ProseMirrorEditor.tsx`) -/

/-- JS `currentVal.endsWith('\n')`: the string's last character is a newline. -/
def endsWithNewline (s : String) : Bool :=
  s.data.getLast? == some '\n'

/-- `insertTextAtEnd` from `ProseMirrorEditor.tsx`:
```
const currentVal = textareaRef.current.value;
const prefix = currentVal && !currentVal.endsWith('\n') ? '\n' : '';
textareaRef.current.value = currentVal + prefix + text;
```
(the scroll and focus calls are presentation only). -/
def insertTextAtEnd (currentVal text : String) : String :=
  currentVal ++ (if strTruthy currentVal && !endsWithNewline currentVal then "\n" else "") ++ text

/-- C4: inserting reply `R` after existing content `C` joins with a newline
exactly when `C` is non-empty and does not already end in one. -/
theorem insert_newline_rule (C R : String) :
    (C ≠ "" → C.data.getLast? ≠ some '\n' → insertTextAtEnd C R = C ++ "\n" ++ R) ∧
    (C = "" → insertTextAtEnd C R = C ++ R) ∧
    (C.data.getLast? = some '\n' → insertTextAtEnd C R = C ++ R) := by
  refine ⟨fun hne hnl => ?_, fun he => ?_, fun hl => ?_⟩
  · simp [insertTextAtEnd, strTruthy, endsWithNewline, hne, hnl]
  · simp [insertTextAtEnd, strTruthy, he]
  · simp [insertTextAtEnd, endsWithNewline, hl]

/-- Witness for C4: concrete strings exercising all three branches. -/
theorem insert_newline_rule_witness :
    insertTextAtEnd "Once upon a time" "the hero arrived." = "Once upon a time\nthe hero arrived." ∧
    insertTextAtEnd "" "abc" = "" ++ "abc" ∧
    insertTextAtEnd "line\n" "abc" = "line\n" ++ "abc" := by
  refine ⟨?_, ?_, ?_⟩
  · have h := (insert_newline_rule "Once upon a time" "the hero arrived.").1
      (by decide) (by decide)
    rw [h]
    decide
  · exact (insert_newline_rule "" "abc").2.1 rfl
  · exact (insert_newline_rule "line\n" "abc").2.2 (by decide)

/-! ### Provider call (`generateText` in `App.tsx`) -/

/-- How the `fetch` of `/api/grok` inside `generateText` resolved.
`reject msg` is a network-level rejection whose `Error` carries `msg`;
`httpError status bodyMsg statusText` is a `!response.ok` response, where
`bodyMsg` is the value of `data.error?.message || data.error ||
JSON.stringify(data)` when the body parsed as JSON (`none` when `response.json()`
threw); `ok content` is an ok response whose parsed body has
`choices?.[0]?.message?.content` equal to `content` (`none` when absent). -/
inductive FetchOutcome where
  | reject (msg : String)
  | httpError (status : Nat) (bodyMsg : Option String) (statusText : String)
  | ok (content : Option String)
deriving DecidableEq, Repr

/-- `generateText` from `App.tsx`, as a function from the fetch's resolution to
either the thrown error's message or the returned text:
```
if (!response.ok) {
  let errorMessage = `HTTP error! status: ${response.status}`;
  try {
    const data = await response.json();
    errorMessage = data.error?.message || data.error || JSON.stringify(data);
  } catch (e) {
    errorMessage = response.statusText || errorMessage;
  }
  throw new Error(errorMessage);
}
const data = await response.json();
const text = data.choices?.[0]?.message?.content ?? "";
if (!text) throw new Error("No content returned from API");
return text;
```
(the `console.error` + rethrow in the outer catch preserves the error). -/
def generateText (outcome : FetchOutcome) : Except String String :=
  match outcome with
  | .reject msg => .error msg
  | .httpError status bodyMsg statusText =>
      .error (match bodyMsg with
        | some m => m
        | none =>
            if strTruthy statusText then statusText
            else "HTTP error! status: " ++ toString status)
  | .ok content =>
      let text := content.getD ""
      if text = "" then .error "No content returned from API" else .ok text

/-! ### The generation flow (`handleContinue` in `App.tsx`) -/

/-- `status` state of `App.tsx`: `'idle' | 'generating' | 'success' | 'error'`
(the spec calls the `error` status "failure"). -/
inductive Status where
  | idle
  | generating
  | success
  | error
deriving DecidableEq, Repr

/-- The outcome of one `handleContinue` call: the final synchronous values of
the `status` and `error` state, the History Log, the editing surface content,
and whether `generateText` (the provider call) was invoked at all.
(The transient `generatingText` strings and the deferred
`setTimeout(() => setStatus('idle'), 2000)` are presentation only.) -/
structure ContinueResult where
  status : Status
  error : String
  history : List HistoryEntry
  editor : String
  providerCalled : Bool
deriving DecidableEq, Repr

/-- `handleContinue` from `App.tsx`. `now` is `Date.now()` at the user-entry
append, `now2` at the ai-entry append; `editor` is
`editorRef.current?.getText() ?? ''`; `outcome` is how the provider fetch
resolves if it is issued:
```
setStatus('generating'); setError('');
try {
  const currentText = editorRef.current?.getText() ?? '';
  if (!currentText.trim()) throw new Error('Please write something first!');
  addToHistory('user', currentText);
  ...
  const generatedText = await generateText(messages);
  editorRef.current?.insertTextAtEnd(generatedText);
  addToHistory('ai', generatedText);
  setStatus('success');
} catch (err) {
  setError(err instanceof Error ? err.message : 'Unknown error');
  setStatus('error');
}
``` -/
def handleContinue (now now2 : Nat) (editor : String) (history : List HistoryEntry)
    (outcome : FetchOutcome) : ContinueResult :=
  let currentText := editor
  if jsTrim currentText = "" then
    { status := .error
      error := "Please write something first!"
      history := history
      editor := editor
      providerCalled := false }
  else
    let history1 := addToHistory now .user currentText history
    match generateText outcome with
    | .error msg =>
        { status := .error
          error := msg
          history := history1
          editor := editor
          providerCalled := true }
    | .ok text =>
        { status := .success
          error := ""
          history := addToHistory now2 .ai text history1
          editor := insertTextAtEnd editor text
          providerCalled := true }

/-- C3: on empty or whitespace-only editor text, `handleContinue` ends with
`status = 'error'` (the spec's failure status) and the user-input error
message; the provider is not called, and neither a user nor an ai entry is
appended to the History Log. -/
theorem empty_input_rejected (now now2 : Nat) (editor : String)
    (history : List HistoryEntry) (outcome : FetchOutcome)
    (hempty : jsTrim editor = "") :
    (handleContinue now now2 editor history outcome).status = .error ∧
    (handleContinue now now2 editor history outcome).error = "Please write something first!" ∧
    (handleContinue now now2 editor history outcome).providerCalled = false ∧
    (handleContinue now now2 editor history outcome).history = history ∧
    (handleContinue now now2 editor history outcome).editor = editor := by
  simp [handleContinue, hempty]

/-- Witness for C3: a whitespace-only editor with an ok provider outcome. -/
theorem empty_input_rejected_witness :
    (jsTrim "  \n " = "") ∧
    (handleContinue 1 2 "  \n " [] (.ok (some "text"))).status = .error ∧
    (handleContinue 1 2 "  \n " [] (.ok (some "text"))).providerCalled = false ∧
    (handleContinue 1 2 "  \n " [] (.ok (some "text"))).history = [] := by
  have h : jsTrim "  \n " = "" := by decide
  have hc := empty_input_rejected 1 2 "  \n " [] (.ok (some "text")) h
  exact ⟨h, hc.1, hc.2.2.1, hc.2.2.2.1⟩

/-- C6: an ok provider response from which no non-empty text can be extracted
(`choices?.[0]?.message?.content ?? ""` empty) makes `generateText` throw the
malformed-response error, so the attempt ends with `status = 'error'` (never
`'success'`) carrying that message. -/
theorem malformed_response_fails (now now2 : Nat) (editor : String)
    (history : List HistoryEntry) (content : Option String)
    (hempty : content.getD "" = "") :
    generateText (.ok content) = .error "No content returned from API" ∧
    (jsTrim editor ≠ "" →
      (handleContinue now now2 editor history (.ok content)).status = .error ∧
      (handleContinue now now2 editor history (.ok content)).status ≠ .success ∧
      (handleContinue now now2 editor history (.ok content)).error
        = "No content returned from API") := by
  have hg : generateText (.ok content) = .error "No content returned from API" := by
    simp [generateText, hempty]
  refine ⟨hg, fun hne => ?_⟩
  simp [handleContinue, hne, hg]

/-- Witness for C6: a response with an absent `content` field, and one with an
empty-string `content`, both on a non-empty editor. -/
theorem malformed_response_fails_witness :
    ((Option.getD (α := String) none "" = "") ∧
      (handleContinue 1 2 "story" [] (.ok none)).status = .error) ∧
    (((some "").getD "" = "") ∧
      (handleContinue 1 2 "story" [] (.ok (some ""))).status ≠ .success) := by
  constructor
  · exact ⟨rfl, ((malformed_response_fails 1 2 "story" [] none rfl).2 (by decide)).1⟩
  · exact ⟨rfl, ((malformed_response_fails 1 2 "story" [] (some "") rfl).2 (by decide)).2.1⟩

/-! ### Story Store (`saveStory` and friends in `App.tsx`) -/

/-- `Story` from `App.tsx`:
`{ id: string; title: string; content: string; timestamp: number }`. -/
structure Story where
  id : String
  title : String
  content : String
  timestamp : Nat
deriving DecidableEq, Repr

/-- JS `content.split('\n')[0]`: the text before the first newline
(the whole string when it has none). -/
def firstLine (content : String) : String :=
  ⟨content.data.takeWhile (· ≠ '\n')⟩

/-- The title computed by `saveStory`:
`content.split('\n')[0].slice(0, 50) || 'Untitled Story'`. -/
def computeTitle (content : String) : String :=
  let t := jsSlice (firstLine content) 50
  if strTruthy t then t else "Untitled Story"

/-- The `newStory` object `saveStory` builds (`Date.now()` passed as `now`). -/
def mkStory (now : Nat) (content : String) : Story :=
  { id := toString now
    title := computeTitle content
    content := content
    timestamp := now }

/-- `saveStory` from `App.tsx`, as a function from the editor content, the
`currentStoryId` state and the `stories` state to the new
`(currentStoryId, stories)` pair:
```
const content = editorRef.current?.getText() || '';
if (!content.trim()) return;
const title = content.split('\n')[0].slice(0, 50) || 'Untitled Story';
const newStory: Story = { id: Date.now().toString(), title, content, timestamp: Date.now() };
if (currentStoryId) {
  setStories(stories.map(s => s.id === currentStoryId ? { ...s, content, title } : s));
} else {
  setStories([newStory, ...stories]);
  setCurrentStoryId(newStory.id);
}
```
`if (currentStoryId)` is JS truthiness: `null` and the empty string both take
the else branch. -/
def saveStory (now : Nat) (content : String) (currentStoryId : Option String)
    (stories : List Story) : Option String × List Story :=
  if jsTrim content = "" then (currentStoryId, stories)
  else
    let title := computeTitle content
    match currentStoryId with
    | some cid =>
        if cid ≠ "" then
          (some cid,
           stories.map fun s =>
             if s.id = cid then { s with content := content, title := title } else s)
        else ((mkStory now content).id, (mkStory now content) :: stories)
    | none => ((mkStory now content).id, (mkStory now content) :: stories)

theorem saveStory_noop (now : Nat) (content : String) (cid : Option String)
    (stories : List Story) (h : jsTrim content = "") :
    saveStory now content cid stories = (cid, stories) := by
  simp [saveStory, h]

theorem saveStory_update (now : Nat) (content : String) (cid : String)
    (stories : List Story) (hws : jsTrim content ≠ "") (hcid : cid ≠ "") :
    saveStory now content (some cid) stories
      = (some cid,
         stories.map fun s =>
           if s.id = cid then { s with content := content, title := computeTitle content }
           else s) := by
  simp [saveStory, hws, hcid]

theorem saveStory_create (now : Nat) (content : String) (cid : Option String)
    (stories : List Story) (hws : jsTrim content ≠ "")
    (hcid : cid = none ∨ cid = some "") :
    saveStory now content cid stories
      = (some (toString now), mkStory now content :: stories) := by
  rcases hcid with h | h <;> subst h <;> simp [saveStory, hws, mkStory]

/-- Counterexample for C5: with current id `"999"` and a collection whose only
story has id `"1"`, saving non-whitespace content neither updates nor creates:
the collection is returned unchanged (size stays 1, not 2) and no fresh id is
produced, contradicting "does not match any existing Story creates a new
Story ... size increases by exactly one". -/
theorem story_upsert_counterexample :
    saveStory 5 "hello" (some "999") [⟨"1", "Title", "body", 0⟩]
      = (some "999", [⟨"1", "Title", "body", 0⟩]) ∧
    (saveStory 5 "hello" (some "999") [⟨"1", "Title", "body", 0⟩]).2.length ≠ 2 := by
  constructor
  · decide
  · decide

/-- C5 (amended): saving whitespace-only content changes nothing; saving with
a truthy current id maps the collection, updating only the matching story's
content/title (collection size unchanged, current id unchanged), and when no
story matches the collection is unchanged and nothing is created; a new story
is created, prepended, and made current exactly when the current id is absent
(or the empty string). -/
theorem story_upsert (now : Nat) (content : String) (cid : Option String)
    (stories : List Story) :
    (jsTrim content = "" → saveStory now content cid stories = (cid, stories)) ∧
    (jsTrim content ≠ "" → ∀ c, cid = some c → c ≠ "" →
      saveStory now content cid stories
        = (some c,
           stories.map fun s =>
             if s.id = c then { s with content := content, title := computeTitle content }
             else s) ∧
      (saveStory now content cid stories).2.length = stories.length ∧
      (c ∉ stories.map Story.id → (saveStory now content cid stories).2 = stories)) ∧
    (jsTrim content ≠ "" → (cid = none ∨ cid = some "") →
      saveStory now content cid stories
        = (some (toString now), mkStory now content :: stories) ∧
      (saveStory now content cid stories).2.length = stories.length + 1) := by
  refine ⟨saveStory_noop now content cid stories, fun hws c hc hcne => ?_, fun hws hcid => ?_⟩
  · subst hc
    have hupd := saveStory_update now content c stories hws hcne
    refine ⟨hupd, by rw [hupd]; simp, fun hnm => ?_⟩
    rw [hupd]
    show stories.map _ = stories
    have hcg : stories.map
        (fun s => if s.id = c then { s with content := content, title := computeTitle content } else s)
          = stories.map id := by
      refine List.map_congr_left fun s hs => ?_
      have hne : s.id ≠ c := fun he => hnm (he ▸ List.mem_map_of_mem Story.id hs)
      simp [hne]
    rw [hcg, List.map_id]
  · have hcr := saveStory_create now content cid stories hws hcid
    exact ⟨hcr, by rw [hcr]; simp⟩

/-- Witness for C5 (amended): a no-op save, an in-place update of story `"1"`
(including the unmatched-id clause at id `"2"` against a one-story
collection), and a fresh creation with no current id. -/
theorem story_upsert_witness :
    (jsTrim " " = "" ∧ saveStory 9 " " none [] = (none, [])) ∧
    (jsTrim "new text" ≠ "" ∧
      saveStory 9 "new text" (some "1") [⟨"1", "Old", "old", 3⟩]
        = (some "1", [⟨"1", "new text", "new text", 3⟩]) ∧
      (saveStory 9 "new text" (some "2") [⟨"1", "Old", "old", 3⟩]).2
        = [⟨"1", "Old", "old", 3⟩]) ∧
    (saveStory 9 "new text" none [⟨"1", "Old", "old", 3⟩]
      = (some "9", mkStory 9 "new text" :: [⟨"1", "Old", "old", 3⟩])) := by
  have hws : jsTrim "new text" ≠ "" := by decide
  refine ⟨⟨by decide, (story_upsert 9 " " none []).1 (by decide)⟩, ⟨hws, ?_, ?_⟩, ?_⟩
  · have h := ((story_upsert 9 "new text" (some "1") [⟨"1", "Old", "old", 3⟩]).2.1
      hws "1" rfl (by decide)).1
    rw [h]
    decide
  · exact ((story_upsert 9 "new text" (some "2") [⟨"1", "Old", "old", 3⟩]).2.1
      hws "2" rfl (by decide)).2.2 (by decide)
  · exact ((story_upsert 9 "new text" none [⟨"1", "Old", "old", 3⟩]).2.2
      hws (Or.inl rfl)).1

/-- C10: when the current id is truthy, `saveStory` only maps the collection:
the length, every story's `id` and `timestamp`, and the position of every
story are unchanged; stories whose id differs from the current id are
unchanged entirely; and the current id itself is unchanged. -/
theorem story_save_frame (now : Nat) (content : String) (cid : String)
    (stories : List Story) (hcid : cid ≠ "")
    (hmem : cid ∈ stories.map Story.id) :
    (saveStory now content (some cid) stories).1 = some cid ∧
    (saveStory now content (some cid) stories).2.length = stories.length ∧
    (∀ i : Nat,
      ((saveStory now content (some cid) stories).2[i]?).map Story.id
        = (stories[i]?).map Story.id ∧
      ((saveStory now content (some cid) stories).2[i]?).map Story.timestamp
        = (stories[i]?).map Story.timestamp ∧
      (∀ s : Story, stories[i]? = some s → s.id ≠ cid →
        (saveStory now content (some cid) stories).2[i]? = some s)) := by
  by_cases hws : jsTrim content = ""
  · rw [saveStory_noop now content (some cid) stories hws]
    exact ⟨rfl, rfl, fun i => ⟨rfl, rfl, fun s hs _ => hs⟩⟩
  · rw [saveStory_update now content cid stories hws hcid]
    refine ⟨rfl, by simp, fun i => ?_⟩
    show ((stories.map _)[i]?).map Story.id = _ ∧
      ((stories.map _)[i]?).map Story.timestamp = _ ∧ _
    rw [List.getElem?_map]
    refine ⟨?_, ?_, fun s hs hne => ?_⟩
    · cases h : stories[i]? with
      | none => simp
      | some s =>
        by_cases hid : s.id = cid <;> simp [hid]
    · cases h : stories[i]? with
      | none => simp
      | some s =>
        by_cases hid : s.id = cid <;> simp [hid]
    · rw [hs]
      simp [hne]

/-- Witness for C10: updating story `"1"` in a two-story collection leaves
ids, timestamps, positions and the other story untouched. -/
theorem story_save_frame_witness :
    (("1" : String) ≠ "" ∧
      "1" ∈ ([⟨"1", "A", "a", 3⟩, ⟨"2", "B", "b", 4⟩] : List Story).map Story.id) ∧
    (saveStory 9 "text" (some "1") [⟨"1", "A", "a", 3⟩, ⟨"2", "B", "b", 4⟩]).1 = some "1" ∧
    (saveStory 9 "text" (some "1") [⟨"1", "A", "a", 3⟩, ⟨"2", "B", "b", 4⟩]).2.length = 2 ∧
    (saveStory 9 "text" (some "1") [⟨"1", "A", "a", 3⟩, ⟨"2", "B", "b", 4⟩]).2[1]?
      = some ⟨"2", "B", "b", 4⟩ := by
  have hmem : "1" ∈ ([⟨"1", "A", "a", 3⟩, ⟨"2", "B", "b", 4⟩] : List Story).map Story.id := by
    decide
  have h := story_save_frame 9 "text" "1" [⟨"1", "A", "a", 3⟩, ⟨"2", "B", "b", 4⟩]
    (by decide) hmem
  exact ⟨⟨by decide, hmem⟩, h.1, h.2.1,
    (h.2.2 1).2.2 ⟨"2", "B", "b", 4⟩ rfl (by decide)⟩

/-! ### Loading the History Log from the Persistence Gateway (`App.tsx`) -/

/-- The history-loading effect from `App.tsx`:
```
const savedHistory = localStorage.getItem('ai-history');
if (savedHistory) setHistory(JSON.parse(savedHistory));
```
`stored` is `localStorage.getItem('ai-history')` (`none` for a missing key).
`JSON.parse` is modelled by `parse`, with `parse s = none` meaning
`JSON.parse(s)` throws a `SyntaxError`; the effect has no `try`/`catch`, so
that exception propagates out, modelled as `Except.error`. The `history`
state it runs over starts as `[]`. -/
def loadHistory (parse : String → Option (List HistoryEntry))
    (stored : Option String) : Except String (List HistoryEntry) :=
  match stored with
  | none => .ok []
  | some s =>
      if strTruthy s then
        match parse s with
        | some h => .ok h
        | none => .error "SyntaxError: JSON.parse"
      else .ok []

/-- Counterexample for C7: an unparsable stored value makes the load effect
throw (`JSON.parse` is not wrapped in `try`/`catch`) instead of degrading to
the empty sequence. -/
theorem load_degrades_counterexample :
    loadHistory (fun _ => none) (some "corrupt") = .error "SyntaxError: JSON.parse" ∧
    (loadHistory (fun _ => none) (some "corrupt")).isOk = false := by
  exact ⟨rfl, rfl⟩

/-- C7 (amended): the load returns the parsed last-persisted sequence when the
stored value parses, and the empty sequence when the key is absent or the
stored value is the empty string; but when a non-empty stored value fails to
parse, the load fails (the parse exception is not caught) rather than
degrading to empty. -/
theorem load_history_behavior (parse : String → Option (List HistoryEntry))
    (stored : Option String) :
    (stored = none → loadHistory parse stored = .ok []) ∧
    (stored = some "" → loadHistory parse stored = .ok []) ∧
    (∀ s h, stored = some s → s ≠ "" → parse s = some h →
      loadHistory parse stored = .ok h) ∧
    (∀ s, stored = some s → s ≠ "" → parse s = none →
      loadHistory parse stored = .error "SyntaxError: JSON.parse") := by
  refine ⟨fun h => by simp [loadHistory, h], fun h => by simp [loadHistory, h, strTruthy],
    fun s h hs hne hp => ?_, fun s hs hne hp => ?_⟩
  · subst hs
    simp [loadHistory, strTruthy, hne, hp]
  · subst hs
    simp [loadHistory, strTruthy, hne, hp]

/-- Witness for C7 (amended): a concrete parse function exercising all four
clauses of `load_history_behavior`. -/
theorem load_history_behavior_witness :
    loadHistory (fun _ => some [mkEntry 1 .user "x"]) none = .ok [] ∧
    loadHistory (fun _ => some [mkEntry 1 .user "x"]) (some "") = .ok [] ∧
    loadHistory (fun _ => some [mkEntry 1 .user "x"]) (some "[…]")
      = .ok [mkEntry 1 .user "x"] ∧
    loadHistory (fun _ => none) (some "corrupt!") = .error "SyntaxError: JSON.parse" := by
  refine ⟨(load_history_behavior _ none).1 rfl,
    (load_history_behavior _ (some "")).2.1 rfl,
    (load_history_behavior _ (some "[…]")).2.2.1 "[…]" _ rfl (by decide) rfl,
    (load_history_behavior _ (some "corrupt!")).2.2.2 "corrupt!" rfl (by decide) rfl⟩

/-! ### The XState generation machine (`aiMachine.ts`) -/

/-- The machine's four states. -/
inductive MStatus where
  | idle
  | generating
  | success
  | failure
deriving DecidableEq, Repr

/-- A machine configuration: the current state node, the context
(`error`, `lastGenerated`, both `string | null`), and — to state the
single-flight property — the number of unresolved `callGrok` invocations
(`invoke` on entering `generating` starts one; `onDone`/`onError` resolves it). -/
structure MState where
  status : MStatus
  error : Option String
  lastGenerated : Option String
  inflight : Nat
deriving DecidableEq, Repr

/-- The machine's events. `GENERATE`, `CONTINUE`, `RETRY`, `CANCEL` are the
external events of `aiMachine.ts`; `done output` and `errorEv msg` are the
`onDone`/`onError` resolutions of the invoked `callGrok` actor, carrying
`event.output.generatedText` and `(event.error as Error).message`. -/
inductive MEvent where
  | generate
  | continueEv
  | retry
  | cancel
  | done (output : String)
  | errorEv (msg : String)
deriving DecidableEq, Repr

/-- The machine's initial configuration:
`context: { error: null, lastGenerated: null }`, initial state `idle`,
no call in flight. -/
def initState : MState :=
  { status := .idle, error := none, lastGenerated := none, inflight := 0 }

/-- Entering `generating`: the entry action `assign({ error: () => null })`
runs and the `callGrok` invocation starts (one more call in flight). -/
def enterGenerating (s : MState) : MState :=
  { s with status := .generating, error := none, inflight := s.inflight + 1 }

/-- One step of `aiMachine.ts`. Transitions are exactly those declared in the
machine; an event a state does not handle is discarded (XState semantics):
`idle --GENERATE--> generating`; in `generating` the invocation resolves via
`onDone` (assign `lastGenerated := event.output.generatedText`, to `success`)
or `onError` (assign `error := (event.error as Error).message || 'Unknown
error'`, to `failure`); `success --CONTINUE--> idle`;
`failure --RETRY--> generating`; `failure --CANCEL--> idle` (no action). -/
def step (s : MState) (e : MEvent) : MState :=
  match s.status, e with
  | .idle, .generate => enterGenerating s
  | .generating, .done output =>
      { s with status := .success, lastGenerated := some output,
               inflight := s.inflight - 1 }
  | .generating, .errorEv msg =>
      { s with status := .failure,
               error := some (if strTruthy msg then msg else "Unknown error"),
               inflight := s.inflight - 1 }
  | .success, .continueEv => { s with status := .idle }
  | .failure, .retry => enterGenerating s
  | .failure, .cancel => { s with status := .idle }
  | _, _ => s

/-- Running the machine from its initial configuration. -/
def run (evs : List MEvent) : MState :=
  evs.foldl step initState

/-- The inductive invariant behind C8 (amended): whenever the machine sits in
`generating` or `success`, the context's `error` is `null`. -/
def ErrorInv (s : MState) : Prop :=
  (s.status = .generating → s.error = none) ∧ (s.status = .success → s.error = none)

theorem errorInv_step (s : MState) (e : MEvent) (hs : ErrorInv s) :
    ErrorInv (step s e) := by
  obtain ⟨h1, h2⟩ := hs
  cases e <;> cases hst : s.status <;>
    simp_all [step, enterGenerating, ErrorInv]

theorem errorInv_run (evs : List MEvent) : ErrorInv (run evs) := by
  rw [run]
  induction evs using List.reverseRecOn with
  | nil => simp [List.foldl_nil, initState, ErrorInv]
  | append_singleton evs e ih =>
      rw [List.foldl_append, List.foldl_cons, List.foldl_nil]
      exact errorInv_step _ e ih

/-- Counterexample for C8: after `GENERATE`, a provider error `"boom"`, and
`CANCEL`, the machine is in `idle` with `error` still `"boom"` — the `CANCEL`
transition of `aiMachine.ts` has no action clearing `error`, so the error
field is non-null while the status is not `failure`. -/
theorem error_only_in_failure_counterexample :
    (run [.generate, .errorEv "boom", .cancel]).status = .idle ∧
    (run [.generate, .errorEv "boom", .cancel]).error = some "boom" ∧
    (run [.generate, .errorEv "boom", .cancel]).error ≠ none := by
  refine ⟨rfl, rfl, by decide⟩

/-- C8 (amended): in every reachable configuration a non-null `error` implies
the status is `failure` or `idle` (not `generating` or `success`); every
transition that enters `generating` clears `error`; but `CANCEL` from
`failure` moves to `idle` leaving the whole context — including `error` —
unchanged. -/
theorem error_field_policy :
    (∀ evs : List MEvent, (run evs).error ≠ none →
      (run evs).status = .failure ∨ (run evs).status = .idle) ∧
    (∀ (s : MState) (e : MEvent), s.status ≠ .generating →
      (step s e).status = .generating → (step s e).error = none) ∧
    (∀ s : MState, s.status = .failure →
      step s .cancel = { s with status := .idle }) := by
  refine ⟨fun evs herr => ?_, fun s e hne hgen => ?_, fun s hf => ?_⟩
  · have hinv := errorInv_run evs
    cases hst : (run evs).status
    · exact Or.inr rfl
    · exact absurd (hinv.1 hst) herr
    · exact absurd (hinv.2 hst) herr
    · exact Or.inl rfl
  · cases e <;> cases hst : s.status <;>
      simp_all [step, enterGenerating]
  · cases e₀ : s.status <;> simp_all [step]

/-- Witness for C8 (amended): a concrete run ending with a non-null error in
`idle`; a concrete `GENERATE` from `failure`-with-error clearing it; a
concrete `CANCEL` keeping the context. -/
theorem error_field_policy_witness :
    ((run [.generate, .errorEv "boom", .cancel]).error ≠ none ∧
      ((run [.generate, .errorEv "boom", .cancel]).status = .failure ∨
        (run [.generate, .errorEv "boom", .cancel]).status = .idle)) ∧
    ((⟨.failure, some "boom", none, 0⟩ : MState).status ≠ .generating ∧
      (step ⟨.failure, some "boom", none, 0⟩ .retry).status = .generating ∧
      (step ⟨.failure, some "boom", none, 0⟩ .retry).error = none) ∧
    ((⟨.failure, some "boom", some "r", 0⟩ : MState).status = .failure ∧
      step ⟨.failure, some "boom", some "r", 0⟩ .cancel
        = { (⟨.failure, some "boom", some "r", 0⟩ : MState) with status := .idle }) := by
  refine ⟨⟨by decide, error_field_policy.1 _ (by decide)⟩,
    ⟨by decide, by decide,
      error_field_policy.2.1 ⟨.failure, some "boom", none, 0⟩ .retry (by decide) (by decide)⟩,
    ⟨rfl, error_field_policy.2.2 ⟨.failure, some "boom", some "r", 0⟩ rfl⟩⟩

/-- The inductive invariant behind C9: the in-flight call count is 1 exactly
in `generating` and 0 otherwise. -/
def FlightInv (s : MState) : Prop :=
  s.inflight = (if s.status = .generating then 1 else 0)

theorem flightInv_step (s : MState) (e : MEvent) (hs : FlightInv s) :
    FlightInv (step s e) := by
  cases e <;> cases hst : s.status <;>
    simp_all [step, enterGenerating, FlightInv]

theorem flightInv_run (evs : List MEvent) : FlightInv (run evs) := by
  rw [run]
  induction evs using List.reverseRecOn with
  | nil => rfl
  | append_singleton evs e ih =>
      rw [List.foldl_append, List.foldl_cons, List.foldl_nil]
      exact flightInv_step _ e ih

/-- C9: `generating` declares no `GENERATE` transition, so delivering
`GENERATE` there is a no-op: the configuration — in-flight call count
included — is unchanged, and consequently in every reachable configuration at
most one provider call is in flight. -/
theorem single_flight :
    (∀ s : MState, s.status = .generating → step s .generate = s) ∧
    (∀ evs : List MEvent, (run evs).inflight ≤ 1) := by
  refine ⟨fun s hs => ?_, fun evs => ?_⟩
  · cases h : s.status <;> simp_all [step]
  · have h := flightInv_run evs
    rw [FlightInv] at h
    split at h <;> omega

/-- Witness for C9: delivering `GENERATE` in a concrete `generating`
configuration changes nothing, and a concrete run keeps at most one call in
flight. -/
theorem single_flight_witness :
    ((⟨.generating, none, none, 1⟩ : MState).status = .generating ∧
      step ⟨.generating, none, none, 1⟩ .generate = ⟨.generating, none, none, 1⟩) ∧
    (run [.generate, .generate]).inflight ≤ 1 := by
  exact ⟨⟨rfl, single_flight.1 ⟨.generating, none, none, 1⟩ rfl⟩,
    single_flight.2 [.generate, .generate]⟩

end Chronical
